import Mathlib

/-!
Verification of the generic xDS discovery server (`sds` package) and the
`PushRequest` merge algebra (`pilot/pkg/model/push_request.go`).

The Go code is shallowly embedded: Go structs become Lean structures, the
proxy's `WatchedResources` map becomes an association list with unique keys,
pointers become `Option`, and the stateful handlers (`shouldRespond`,
`Connection.send`, `pushXds`, `processRequest`, `receive`, `Stream`) become
pure state-passing functions.
-/

namespace XdsServer

/-- Modelled from the spec: the reserved secret type-URL, the only
non-wildcard type of this component (`v3.SecretType`; its source file is not
part of this repository, only its use sites are). Only its identity as a
distinguished string matters. -/
def secretType : String := "type.googleapis.com/envoy.extensions.transport_sockets.tls.v3.Secret"

/-- Modelled from the spec: the reserved health-probe type-URL
(`v3.HealthInfoType`), tolerated and ignored as the first stream message. -/
def healthInfoType : String := "type.googleapis.com/istio.v1.HealthInformation"

/-- Modelled from the spec: the reserved debug type-URL PREFIX
(`v3.DebugType`); responses whose type-URL starts with it skip
`WatchedResource` bookkeeping on send. -/
def debugType : String := "istio.io/debug"

/-- Modelled from the spec: the gRPC status code `INVALID_ARGUMENT` (numeric
value 3 on the wire), used for the missing-node-information failure. -/
def codeInvalidArgument : Nat := 3

/-- Modelled from the spec: the gRPC status code `Unimplemented` (numeric
value 12 on the wire), which the spec says the Delta-xDS entrypoint returns. -/
def codeUnimplemented : Nat := 12

/-- Mirror of `core.Node`: only the `Id` field is inspected by this server. -/
structure Node where
  id : String
  deriving DecidableEq, Repr

/-- Mirror of `request.ErrorDetail` (`google.rpc.Status`): presence signals a
NACK; the server only reads `Code` and `Message` for logging. -/
structure ErrorDetail where
  code : Int
  message : String
  deriving DecidableEq, Repr

/-- Mirror of `discovery.DiscoveryRequest` restricted to the fields the
server reads: `TypeUrl`, `Node`, `VersionInfo`, `ResponseNonce`,
`ResourceNames`, `ErrorDetail`. -/
structure DiscoveryRequest where
  typeUrl : String
  node : Option Node
  versionInfo : String
  responseNonce : String
  resourceNames : List String
  errorDetail : Option ErrorDetail
  deriving DecidableEq, Repr

/-- Mirror of `discovery.DiscoveryResponse`; each resource is abstracted to
its serialized payload (a string), since the server only measures
`len(rc.Value)`. -/
structure DiscoveryResponse where
  typeUrl : String
  versionInfo : String
  nonce : String
  resources : List String
  deriving DecidableEq, Repr

/-- Mirror of `model.WatchedResource`. `LastSent` (a `time.Time`) is
abstracted to a `Nat` timestamp. Go zero values are `""`, `none`, `0`. -/
structure WatchedResource where
  typeUrl : String
  resourceNames : List String
  versionSent : String
  versionAcked : String
  nonceSent : String
  nonceAcked : String
  nonceNacked : String
  lastRequest : Option DiscoveryRequest
  lastSent : Nat
  lastSize : Nat
  deriving DecidableEq, Repr

/-- The zero value `model.WatchedResource{}`. -/
def emptyWR : WatchedResource :=
  { typeUrl := "", resourceNames := [], versionSent := "", versionAcked := ""
    nonceSent := "", nonceAcked := "", nonceNacked := "", lastRequest := none
    lastSent := 0, lastSize := 0 }

/-- The proxy's `WatchedResources` map (type-URL → `*WatchedResource`),
embedded as an association list. A Go map has unique keys; theorems that
need that fact take a `keysNodup` hypothesis. -/
abbrev WRMap : Type := List (String × WatchedResource)

/-- Map read `m[t]`. -/
def lookupWR : WRMap → String → Option WatchedResource
  | [], _ => none
  | p :: rest, t => if p.1 = t then some p.2 else lookupWR rest t

/-- Map write `m[t] = v` (replaces the first binding, else appends). -/
def setWR : WRMap → String → WatchedResource → WRMap
  | [], t, v => [(t, v)]
  | p :: rest, t, v => if p.1 = t then (t, v) :: rest else p :: setWR rest t v

/-- Map delete `delete(m, t)` (removes every binding of the key). -/
def eraseWR : WRMap → String → WRMap
  | [], _ => []
  | p :: rest, t => if p.1 = t then eraseWR rest t else p :: eraseWR rest t

/-- The keys of the association list are pairwise distinct (always true of a
Go map). -/
def keysNodup (m : WRMap) : Prop := (List.map Prod.fst m).Nodup

instance (m : WRMap) : Decidable (keysNodup m) := by
  unfold keysNodup
  infer_instance

theorem keysNodup_nil : keysNodup [] := by
  simp [keysNodup]

/-- Every stored record's `TypeUrl` field equals its key, the invariant the
code maintains by always writing `WatchedResources[r.TypeUrl]` with
`TypeUrl: r.TypeUrl`. -/
def keysMatch (m : WRMap) : Prop := ∀ p ∈ m, (Prod.snd p).typeUrl = p.1

instance (m : WRMap) : Decidable (keysMatch m) := by
  unfold keysMatch
  infer_instance

theorem lookupWR_setWR_self (m : WRMap) (t : String) (v : WatchedResource) :
    lookupWR (setWR m t v) t = some v := by
  induction m with
  | nil => simp [setWR, lookupWR]
  | cons p rest ih =>
    by_cases h : p.1 = t
    · simp [setWR, lookupWR, h]
    · simp [setWR, lookupWR, h, ih]

theorem lookupWR_setWR_ne (m : WRMap) (t t' : String) (v : WatchedResource)
    (h : t' ≠ t) : lookupWR (setWR m t v) t' = lookupWR m t' := by
  have h' : ¬ (t = t') := fun hh => h hh.symm
  induction m with
  | nil => simp [setWR, lookupWR, h']
  | cons p rest ih =>
    by_cases hp : p.1 = t
    · subst hp
      simp [setWR, lookupWR, h']
    · by_cases hp' : p.1 = t'
      · simp [setWR, lookupWR, hp, hp', h]
      · simp [setWR, lookupWR, hp, hp', ih]

theorem lookupWR_eraseWR_self (m : WRMap) (t : String) :
    lookupWR (eraseWR m t) t = none := by
  induction m with
  | nil => simp [eraseWR, lookupWR]
  | cons p rest ih =>
    by_cases h : p.1 = t
    · simp [eraseWR, h, ih]
    · simp [eraseWR, lookupWR, h, ih]

theorem lookupWR_setWR_isSome (m : WRMap) (t t' : String) (v : WatchedResource)
    (h : (lookupWR m t').isSome) : (lookupWR (setWR m t v) t').isSome := by
  by_cases ht : t' = t
  · subst ht
    simp [lookupWR_setWR_self]
  · rw [lookupWR_setWR_ne m t t' v ht]
    exact h

/-- Writing back the exact value already stored is a no-op. -/
theorem setWR_eq_of_lookup (m : WRMap) (t : String) (v : WatchedResource)
    (h : lookupWR m t = some v) : setWR m t v = m := by
  induction m with
  | nil => simp [lookupWR] at h
  | cons p rest ih =>
    obtain ⟨k, w⟩ := p
    by_cases hp : k = t
    · subst hp
      simp [lookupWR] at h
      simp [setWR, h]
    · simp [lookupWR, hp] at h
      simp [setWR, hp, ih h]

/-- Embedding of `listEqualUnordered` (xds.go): length check, then every
element of `b` must be a member of the set built from `a`. Note this is NOT
multiset equality when lists carry duplicates. -/
def listEqualUnordered (a b : List String) : Bool :=
  if a.length ≠ b.length then false
  else b.all (fun c => a.contains c)

/-- Embedding of `isWildcardTypeURL` (xds.go): only the secret type is
non-wildcard; every other type-URL uses wildcard semantics. -/
def isWildcardTypeURL (typeURL : String) : Bool :=
  if typeURL = secretType then false else true

/-- Embedding of `shouldUnsubscribe` (xds.go). -/
def shouldUnsubscribe (request : DiscoveryRequest) : Bool :=
  request.resourceNames.length = 0 && !isWildcardTypeURL request.typeUrl

/-- The `WatchedResource` created by the INIT and RECONNECT branches of
`shouldRespond`: `&model.WatchedResource{TypeUrl, ResourceNames, LastRequest}`
with Go zero values elsewhere. -/
def initialWR (request : DiscoveryRequest) : WatchedResource :=
  { emptyWR with
      typeUrl := request.typeUrl
      resourceNames := request.resourceNames
      lastRequest := some request }

/-- Embedding of `GenericXdsServer.shouldRespond` (xds.go): returns the
respond/no-respond classification together with the updated
`WatchedResources` map of the connection's proxy. -/
def shouldRespondFn (m : WRMap) (request : DiscoveryRequest) : Bool × WRMap :=
  if request.errorDetail.isSome then
    (false,
      match lookupWR m request.typeUrl with
      | some w => setWR m request.typeUrl { w with nonceNacked := request.responseNonce }
      | none => m)
  else if shouldUnsubscribe request then
    (false, eraseWR m request.typeUrl)
  else if request.responseNonce = "" then
    (true, setWR m request.typeUrl (initialWR request))
  else
    match lookupWR m request.typeUrl with
    | none => (true, setWR m request.typeUrl (initialWR request))
    | some previousInfo =>
      if request.responseNonce ≠ previousInfo.nonceSent then
        (false, setWR m request.typeUrl
          { previousInfo with nonceNacked := "", lastRequest := some request })
      else
        let acked := { previousInfo with
          versionAcked := request.versionInfo
          nonceAcked := request.responseNonce
          nonceNacked := ""
          resourceNames := request.resourceNames
          lastRequest := some request }
        if listEqualUnordered previousInfo.resourceNames request.resourceNames then
          (false, setWR m request.typeUrl acked)
        else
          (true, setWR m request.typeUrl acked)

/-- Embedding of `Connection.send` (xds.go). `sendErr` is the outcome of the
wrapped `stream.Send` (`none` = success); `now` is the clock reading for
`LastSent`. On success, for a non-empty nonce and a non-debug type-URL, the
`WatchedResource` bookkeeping is updated (creating a bare record if the type
was never watched). -/
def sendFn (m : WRMap) (res : DiscoveryResponse) (sendErr : Option String)
    (now : Nat) : Option String × WRMap :=
  match sendErr with
  | some e => (some e, m)
  | none =>
    let sz := (res.resources.map String.length).sum
    if !(res.nonce == "") && !(debugType.isPrefixOf res.typeUrl) then
      let w0 := match lookupWR m res.typeUrl with
        | none => { emptyWR with typeUrl := res.typeUrl }
        | some w => w
      (none, setWR m res.typeUrl
        { w0 with nonceSent := res.nonce, versionSent := res.versionInfo
                  lastSent := now, lastSize := sz })
    else
      (none, m)

/-- Outcome of a generator's `Generate` call: an error, a nil resource slice
("no change", skipped silently), or a concrete resource payload. -/
inductive GenResult
  | genError (e : String)
  | genNone
  | genSome (res : List String)
  deriving DecidableEq, Repr

/-- Embedding of `GenericXdsServer.pushXds` (xds.go). `gen` is the generator
registered for the watched type-URL (`none` = no generator), `sendErr` the
transport outcome of `Connection.send`. Returns the error `pushXds` returns
(the generator's error; a send failure is only logged) and the updated map. -/
def pushXdsFn (m : WRMap) (pushVersion : String) (w : Option WatchedResource)
    (gen : Option GenResult) (sendErr : Option String) (now : Nat) :
    Option String × WRMap :=
  match w with
  | none => (none, m)
  | some w =>
    match gen with
    | none => (none, m)
    | some (GenResult.genError e) => (some e, m)
    | some GenResult.genNone => (none, m)
    | some (GenResult.genSome res) =>
      let resp : DiscoveryResponse :=
        { typeUrl := w.typeUrl
          versionInfo := pushVersion
          nonce := pushVersion
          resources := res }
      let sent := sendFn m resp sendErr now
      (none, sent.2)

/-- Embedding of `GenericXdsServer.processRequest` (xds.go): classify via
`shouldRespond`; if a response is due, call `pushXds` with the global push
context's version and the `WatchedResource` looked up AFTER the state-machine
mutation (`con.Watched(req.TypeUrl)`). Returns (responded?, error, map). -/
def processRequestFn (m : WRMap) (req : DiscoveryRequest) (pushVersion : String)
    (gen : Option GenResult) (sendErr : Option String) (now : Nat) :
    Bool × Option String × WRMap :=
  let s := shouldRespondFn m req
  if s.1 then
    let p := pushXdsFn s.2 pushVersion (lookupWR s.2 req.typeUrl) gen sendErr now
    (true, p.1, p.2)
  else
    (false, none, s.2)

/-- A Go `error` as this server produces them: either a gRPC status error
(`status.New(code, msg).Err()`) or a plain error (`fmt.Errorf`). -/
inductive GoError
  | grpcStatus (code : Nat) (msg : String)
  | plain (msg : String)
  deriving DecidableEq, Repr

/-- Discriminator: is this error a gRPC status error? -/
def GoError.isGrpcStatus : GoError → Bool
  | GoError.grpcStatus _ _ => true
  | GoError.plain _ => false

/-- Embedding of `GenericXdsServer.DeltaAggregatedResources` (xds.go): the
body is a single `return fmt.Errorf("delta ads is not supported")`, so the
inbound stream is returned untouched along with that plain error. -/
def deltaAggregatedResources (stream : List DiscoveryRequest) :
    GoError × List DiscoveryRequest :=
  (GoError.plain "delta ads is not supported", stream)

/-- The `req.Node == nil || req.Node.Id == ""` test of `receive` (xds.go). -/
def nodeIdMissing (req : DiscoveryRequest) : Bool :=
  match req.node with
  | none => true
  | some n => n.id == ""

/-- Embedding of the receive goroutine of `GenericXdsServer.receive`
(xds.go), run over the list of successfully received stream messages.
Returns the requests forwarded to `reqChan` and the error (if any) the task
places on `errorChan` before closing both channels. A first message of the
health-probe type is logged and skipped with `firstRequest` left true; the
first counted message must carry a node id, else a `codes.InvalidArgument`
status error is emitted. `initConnection` is modelled as succeeding (its
metadata parsing lives outside this repository's sources). -/
def runReceive (firstRequest : Bool) :
    List DiscoveryRequest → List DiscoveryRequest × Option GoError
  | [] => ([], none)
  | req :: rest =>
    if firstRequest && (req.typeUrl == healthInfoType) then
      runReceive true rest
    else if firstRequest && nodeIdMissing req then
      ([], some (GoError.grpcStatus codeInvalidArgument "missing node information"))
    else
      let out := runReceive false rest
      (req :: out.1, out.2)

/-- The main select loop of `GenericXdsServer.Stream` (xds.go) consuming the
forwarded requests in order (no concurrent pushes): the first error returned
by `processRequest` ends the stream. `gen` selects the generator by
type-URL. -/
def processLoop (pushVersion : String) (gen : String → Option GenResult)
    (sendErr : Option String) (now : Nat) :
    WRMap → List DiscoveryRequest → Option GoError × WRMap
  | m, [] => (none, m)
  | m, req :: rest =>
    let out := processRequestFn m req pushVersion (gen req.typeUrl) sendErr now
    match out.2.1 with
    | some e => (some (GoError.plain e), out.2.2)
    | none => processLoop pushVersion gen sendErr now out.2.2 rest

/-- Embedding of `GenericXdsServer.Stream` (xds.go) over a finite inbound
message list, with no server-originated pushes: the receive task classifies
and forwards messages; the main loop processes the forwarded requests and,
once `reqChan` closes, returns the value read from `errorChan` (the receive
task's error, or `nil` when it closed the channel without sending). -/
def runStream (events : List DiscoveryRequest) (pushVersion : String)
    (gen : String → Option GenResult) (sendErr : Option String) (now : Nat) :
    Option GoError × WRMap :=
  let r := runReceive true events
  let p := processLoop pushVersion gen sendErr now [] r.1
  match p.1 with
  | some e => (some e, p.2)
  | none => (r.2, p.2)

/-- Embedding of `PushOrder` (xds.go): type-URLs that must be pushed first. -/
def PushOrder : List String := [secretType]

/-- Embedding of `KnownOrderedTypeUrls` (xds.go): the set of type-URLs whose
push order is fixed. -/
def KnownOrderedTypeUrls : List String := [secretType]

/-- Embedding of `orderWatchedResources` (xds.go): first every `PushOrder`
type present in the map, in `PushOrder`'s order, then all entries whose
type-URL is not in `KnownOrderedTypeUrls`, in the map's iteration order. -/
def orderWatchedResources (resources : WRMap) : List WatchedResource :=
  (PushOrder.filterMap (fun tp => lookupWR resources tp)) ++
    ((resources.filter (fun p => !(decide (p.1 ∈ KnownOrderedTypeUrls)))).map
      (fun p => p.2))

/-- Mirror of `model.ConfigKey` (kind, name, namespace); only its decidable
equality matters for the merge algebra. -/
structure ConfigKey where
  kind : Nat
  name : String
  nspace : String
  deriving DecidableEq, Repr

/-- Mirror of `model.PushContext` restricted to the field this server reads:
the `PushVersion` string used as both version and nonce of every response
derived from the snapshot. -/
structure PushContext where
  pushVersion : String
  deriving DecidableEq, Repr

/-- Mirror of `model.ResourceDelta`; the Go zero value is the pair of empty
slices. -/
structure ResourceDelta where
  subscribed : List String
  unsubscribed : List String
  deriving DecidableEq, Repr

/-- Mirror of `model.PushRequest` (push_request.go). `ConfigsUpdated`
(`sets.Set[ConfigKey]`) becomes a `Finset`, `Reason` (`ReasonStats`, a
count map `map[TriggerReason]int`) becomes a `Multiset` of reason strings,
and the `Push` pointer becomes an `Option`. A nil Go map and an empty Go map
are identified (the code only ever asks for their `len` and iterates them).
Modelled from the spec for the parts whose sources are not in this
repository: `ReasonStats.Merge` adds per-reason counts (multiset union,
"reasons are not deduplicated") and `sets.Set` insertion is set union. -/
structure PushRequest where
  full : Bool
  configsUpdated : Finset ConfigKey
  push : Option PushContext
  start : Nat
  reason : Multiset String
  delta : ResourceDelta
  deriving DecidableEq

/-- The `other.Push != nil` selection of `Merge`: keep the other push
context when present, else the receiver's. -/
def pickPush (a b : Option PushContext) : Option PushContext :=
  match b with
  | some p => some p
  | none => a

/-- The `ConfigsUpdated` block of `Merge`: do not merge when either side is
empty (`len == 0`); otherwise insert all of the other side's keys. -/
def mergeConfigs (u v : Finset ConfigKey) : Finset ConfigKey :=
  if u.card = 0 ∨ v.card = 0 then ∅ else u ∪ v

/-- Embedding of the non-nil/non-nil core of `PushRequest.Merge`
(push_request.go): reasons are summed, `Full` is OR-ed, the other `Push`
wins when non-nil, the older `Start` is kept, `ConfigsUpdated` is emptied
when either side is empty (`len == 0`) and united otherwise, and `Delta` is
left as the receiver's (`Merge` never touches it). -/
def mergeSome (pr other : PushRequest) : PushRequest :=
  { full := pr.full || other.full
    push := pickPush pr.push other.push
    start := pr.start
    reason := pr.reason + other.reason
    configsUpdated := mergeConfigs pr.configsUpdated other.configsUpdated
    delta := pr.delta }

/-- Embedding of `PushRequest.Merge` including its nil-receiver and
nil-argument short circuits. -/
def mergePR : Option PushRequest → Option PushRequest → Option PushRequest
  | none, other => other
  | some pr, none => some pr
  | some pr, some other => some (mergeSome pr other)

/-- Embedding of the non-nil/non-nil core of `PushRequest.CopyMerge`
(push_request.go): same field algebra as `Merge` except that `Push` is taken
from `other` UNCONDITIONALLY and `Delta` is left at its zero value (the
copy never sets it). The `len(pr.Reason)+len(other.Reason) > 0` allocation
guard is kept. -/
def copyMergeSome (pr other : PushRequest) : PushRequest :=
  { start := pr.start
    full := pr.full || other.full
    push := other.push
    reason :=
      if 0 < Multiset.card pr.reason + Multiset.card other.reason then
        pr.reason + other.reason
      else 0
    configsUpdated :=
      if 0 < pr.configsUpdated.card ∧ 0 < other.configsUpdated.card then
        pr.configsUpdated ∪ other.configsUpdated
      else ∅
    delta := { subscribed := [], unsubscribed := [] } }

/-- Embedding of `PushRequest.CopyMerge` including its nil short circuits. -/
def copyMergePR : Option PushRequest → Option PushRequest → Option PushRequest
  | none, other => other
  | some pr, none => some pr
  | some pr, some other => some (copyMergeSome pr other)

/-- Spec-side rendering of the claim's respond condition, written from the
claim's words: respond exactly when the request is no unsubscribe and it is
an INIT (empty nonce), a RECONNECT (no prior watch), or a RESOURCE-CHANGE
with the resource names compared AS MULTISETS (`List.Perm`). -/
def respondSpecMultiset (m : WRMap) (request : DiscoveryRequest) : Bool :=
  !(shouldUnsubscribe request) &&
    (request.responseNonce == "" ||
      match lookupWR m request.typeUrl with
      | none => true
      | some w =>
        (request.responseNonce == w.nonceSent) &&
          !(decide (List.Perm request.resourceNames w.resourceNames)))

/-- Case of the amended respond condition past the INIT test: respond when
no prior watch exists, or when the nonce is current and the code's
resource-name comparison fails. -/
def respondSpecPrev (prev : Option WatchedResource) (request : DiscoveryRequest) : Bool :=
  match prev with
  | none => true
  | some w =>
    (request.responseNonce == w.nonceSent) &&
      !(listEqualUnordered w.resourceNames request.resourceNames)

/-- Spec-side rendering of the amended respond condition: as
`respondSpecMultiset` but with the resource-name comparison the code
actually performs (`listEqualUnordered`: equal lengths and every requested
name among the stored ones). -/
def respondSpecListEqual (m : WRMap) (request : DiscoveryRequest) : Bool :=
  !(shouldUnsubscribe request) &&
    (request.responseNonce == "" ||
      respondSpecPrev (lookupWR m request.typeUrl) request)

theorem listEqualUnordered_of_perm {a b : List String} (h : List.Perm a b) :
    listEqualUnordered a b = true := by
  unfold listEqualUnordered
  rw [if_neg]
  · rw [List.all_eq_true]
    intro c hc
    have : c ∈ a := h.mem_iff.mpr hc
    simpa using this
  · simp [h.length_eq]

/-- Characterization of the respond bit of `shouldRespond` for error-free
requests, shared by several developments below. -/
theorem shouldRespond_fst_eq_spec (m : WRMap) (req : DiscoveryRequest)
    (he : req.errorDetail = none) :
    (shouldRespondFn m req).1 = respondSpecListEqual m req := by
  unfold shouldRespondFn respondSpecListEqual
  rw [he]
  by_cases hu : shouldUnsubscribe req
  · simp [hu]
  · by_cases hn : req.responseNonce = ""
    · simp [hu, hn]
    · cases hl : lookupWR m req.typeUrl with
      | none => simp [hu, hn, hl, respondSpecPrev]
      | some w =>
        by_cases hs : req.responseNonce = w.nonceSent
        · have hn' : ¬ (w.nonceSent = "") := by
            rw [← hs]; exact hn
          by_cases hle : listEqualUnordered w.resourceNames req.resourceNames
          · simp [hu, hn, hl, hs, hle, hn', respondSpecPrev]
          · simp [hu, hn, hl, hs, hle, hn', respondSpecPrev]
        · simp [hu, hn, hl, hs, respondSpecPrev]

/-- Claim C1 (amended form). For every inbound request with `ErrorDetail =
nil`, `shouldRespond` returns true exactly when the request is not an
unsubscribe and either (i) its `ResponseNonce` is empty (INIT), or (ii) the
nonce is present but no `WatchedResource` exists for the type-URL
(RECONNECT), or (iii) the nonce equals the stored `NonceSent` and the
request's `ResourceNames` fail the code's `listEqualUnordered` comparison
against the stored names (lengths differ, or some requested name is not
among the stored ones); in every other case it returns false. -/
theorem claim1_shouldRespond_classification (m : WRMap) (req : DiscoveryRequest)
    (he : req.errorDetail = none) :
    (shouldRespondFn m req).1 = respondSpecListEqual m req :=
  shouldRespond_fst_eq_spec m req he

/-- Witness for C1's theorem at a concrete INIT request on an empty watch
table: the hypotheses hold and both sides evaluate. -/
theorem claim1_witness :
    ({ typeUrl := "T", node := none, versionInfo := "", responseNonce := ""
       resourceNames := ["a"], errorDetail := none } : DiscoveryRequest).errorDetail
        = none ∧
    (shouldRespondFn []
      { typeUrl := "T", node := none, versionInfo := "", responseNonce := ""
        resourceNames := ["a"], errorDetail := none }).1 =
      respondSpecListEqual []
        { typeUrl := "T", node := none, versionInfo := "", responseNonce := ""
          resourceNames := ["a"], errorDetail := none } :=
  ⟨rfl, claim1_shouldRespond_classification [] _ rfl⟩

/-- Counterexample to C1 as stated: with stored names `["x","y"]` under nonce
`"n1"` and an error-free request re-sending nonce `"n1"` with names
`["x","x"]`, the resource-name multisets differ (so the claim's case (iii)
demands a response), yet `shouldRespond` returns false: the code's
`listEqualUnordered` treats the two lists as equal. -/
theorem claim1_counterexample :
    (shouldRespondFn
        [("T", { emptyWR with typeUrl := "T", resourceNames := ["x", "y"]
                              nonceSent := "n1" })]
        { typeUrl := "T", node := none, versionInfo := "v1", responseNonce := "n1"
          resourceNames := ["x", "x"], errorDetail := none }).1 = false ∧
    respondSpecMultiset
        [("T", { emptyWR with typeUrl := "T", resourceNames := ["x", "y"]
                              nonceSent := "n1" })]
        { typeUrl := "T", node := none, versionInfo := "v1", responseNonce := "n1"
          resourceNames := ["x", "x"], errorDetail := none } = true := by
  decide

/-- Every watch surviving any non-unsubscribe request: `shouldRespond` only
ever rewrites or adds bindings outside its UNSUBSCRIBE branch. -/
theorem shouldRespond_preserves (m : WRMap) (req : DiscoveryRequest)
    (hu : shouldUnsubscribe req = false) (t : String)
    (ht : (lookupWR m t).isSome) :
    (lookupWR (shouldRespondFn m req).2 t).isSome := by
  unfold shouldRespondFn
  by_cases he : req.errorDetail.isSome
  · cases hl : lookupWR m req.typeUrl with
    | none => simpa [he, hl] using ht
    | some w => simpa [he, hl] using lookupWR_setWR_isSome m req.typeUrl t _ ht
  · by_cases hnn : req.responseNonce = ""
    · simpa [he, hu, hnn] using lookupWR_setWR_isSome m req.typeUrl t _ ht
    · cases hl : lookupWR m req.typeUrl with
      | none =>
        simpa [he, hu, hnn, hl] using lookupWR_setWR_isSome m req.typeUrl t _ ht
      | some prev =>
        by_cases hs : req.responseNonce = prev.nonceSent
        · have hnn' : ¬ (prev.nonceSent = "") := by
            rw [← hs]; exact hnn
          by_cases hle : listEqualUnordered prev.resourceNames req.resourceNames
          · simpa [he, hu, hnn, hl, hs, hle, hnn'] using
              lookupWR_setWR_isSome m req.typeUrl t _ ht
          · simpa [he, hu, hnn, hl, hs, hle, hnn'] using
              lookupWR_setWR_isSome m req.typeUrl t _ ht
        · simpa [he, hu, hnn, hl, hs] using
            lookupWR_setWR_isSome m req.typeUrl t _ ht

/-- Claim C6. An error-free request with empty `ResourceNames` is an
unsubscribe exactly for the non-wildcard secret type: there `shouldRespond`
deletes the type's `WatchedResource` and answers false; for every other
(wildcard) type-URL the request is not an unsubscribe and no watch is
deleted. -/
theorem claim6_unsubscribe_wildcard (m : WRMap) (req : DiscoveryRequest)
    (he : req.errorDetail = none) (hn : req.resourceNames = []) :
    (req.typeUrl = secretType →
       shouldRespondFn m req = (false, eraseWR m req.typeUrl) ∧
       lookupWR (shouldRespondFn m req).2 req.typeUrl = none) ∧
    (req.typeUrl ≠ secretType →
       shouldUnsubscribe req = false ∧
       ∀ t, (lookupWR m t).isSome → (lookupWR (shouldRespondFn m req).2 t).isSome) := by
  constructor
  · intro hsec
    have hu : shouldUnsubscribe req = true := by
      simp [shouldUnsubscribe, hn, isWildcardTypeURL, hsec]
    have hstep : shouldRespondFn m req = (false, eraseWR m req.typeUrl) := by
      unfold shouldRespondFn
      simp [he, hu]
    refine ⟨hstep, ?_⟩
    rw [hstep]
    exact lookupWR_eraseWR_self m req.typeUrl
  · intro hsec
    have hu : shouldUnsubscribe req = false := by
      simp [shouldUnsubscribe, hn, isWildcardTypeURL, hsec]
    exact ⟨hu, fun t ht => shouldRespond_preserves m req hu t ht⟩

/-- Witness for C6's theorem: a secret-type unsubscribe on a one-entry watch
table; the hypotheses hold and the deletion is observable. -/
theorem claim6_witness :
    ({ typeUrl := secretType, node := none, versionInfo := "", responseNonce := "n"
       resourceNames := [], errorDetail := none } : DiscoveryRequest).errorDetail
        = none ∧
    (shouldRespondFn
        [(secretType, { emptyWR with typeUrl := secretType, nonceSent := "n" })]
        { typeUrl := secretType, node := none, versionInfo := "", responseNonce := "n"
          resourceNames := [], errorDetail := none }
      = (false,
          eraseWR [(secretType, { emptyWR with typeUrl := secretType, nonceSent := "n" })]
            secretType) ∧
      lookupWR
        (shouldRespondFn
          [(secretType, { emptyWR with typeUrl := secretType, nonceSent := "n" })]
          { typeUrl := secretType, node := none, versionInfo := "", responseNonce := "n"
            resourceNames := [], errorDetail := none }).2 secretType = none) :=
  ⟨rfl,
    (claim6_unsubscribe_wildcard
      [(secretType, { emptyWR with typeUrl := secretType, nonceSent := "n" })]
      { typeUrl := secretType, node := none, versionInfo := "", responseNonce := "n"
        resourceNames := [], errorDetail := none } rfl rfl).1 rfl⟩

/-- Claim C8. An ACK (no error, nonce matching the stored `NonceSent`, not
an unsubscribe, resource names multiset-equal to the stored ones) draws no
response, and replaying the identical ACK is a no-op: it again returns false
and leaves the whole watch table unchanged (the second pass rewrites
`LastRequest` and the ACK fields with the values they already hold). -/
theorem claim8_ack_idempotent (m : WRMap) (req : DiscoveryRequest)
    (w : WatchedResource)
    (hw : lookupWR m req.typeUrl = some w)
    (he : req.errorDetail = none)
    (hu : shouldUnsubscribe req = false)
    (hnonce : req.responseNonce = w.nonceSent)
    (hne : req.responseNonce ≠ "")
    (hperm : List.Perm req.resourceNames w.resourceNames) :
    (shouldRespondFn m req).1 = false ∧
    shouldRespondFn (shouldRespondFn m req).2 req = (false, (shouldRespondFn m req).2) := by
  have hle : listEqualUnordered w.resourceNames req.resourceNames = true :=
    listEqualUnordered_of_perm hperm.symm
  have hne' : ¬ (w.nonceSent = "") := by
    rw [← hnonce]; exact hne
  have hfirst : shouldRespondFn m req =
      (false, setWR m req.typeUrl
        { w with versionAcked := req.versionInfo, nonceAcked := w.nonceSent
                 nonceNacked := "", resourceNames := req.resourceNames
                 lastRequest := some req }) := by
    unfold shouldRespondFn
    simp [he, hu, hne, hw, hnonce, hle, hne']
  have hlook : lookupWR (shouldRespondFn m req).2 req.typeUrl =
      some { w with versionAcked := req.versionInfo, nonceAcked := w.nonceSent
                    nonceNacked := "", resourceNames := req.resourceNames
                    lastRequest := some req } := by
    rw [hfirst]
    exact lookupWR_setWR_self _ _ _
  have hle2 : listEqualUnordered req.resourceNames req.resourceNames = true :=
    listEqualUnordered_of_perm (List.Perm.refl _)
  refine ⟨by rw [hfirst], ?_⟩
  have hsecond : shouldRespondFn (shouldRespondFn m req).2 req =
      (false, setWR (shouldRespondFn m req).2 req.typeUrl
        { w with versionAcked := req.versionInfo, nonceAcked := w.nonceSent
                 nonceNacked := "", resourceNames := req.resourceNames
                 lastRequest := some req }) := by
    conv in shouldRespondFn (shouldRespondFn m req).2 req =>
      rw [shouldRespondFn]
    simp [he, hu, hne, hlook, hnonce, hle2, hne']
  rw [hsecond, setWR_eq_of_lookup _ _ _ hlook]

/-- Witness for C8's theorem: a concrete single-entry table and an ACK whose
names are a permutation of the stored ones. -/
theorem claim8_witness :
    lookupWR [("T", { emptyWR with typeUrl := "T", resourceNames := ["a", "b"]
                                   nonceSent := "n1" })] "T"
      = some { emptyWR with typeUrl := "T", resourceNames := ["a", "b"]
                            nonceSent := "n1" } ∧
    List.Perm ["b", "a"] ["a", "b"] ∧
    ((shouldRespondFn
        [("T", { emptyWR with typeUrl := "T", resourceNames := ["a", "b"]
                              nonceSent := "n1" })]
        { typeUrl := "T", node := none, versionInfo := "v1", responseNonce := "n1"
          resourceNames := ["b", "a"], errorDetail := none }).1 = false ∧
      shouldRespondFn
        (shouldRespondFn
          [("T", { emptyWR with typeUrl := "T", resourceNames := ["a", "b"]
                                nonceSent := "n1" })]
          { typeUrl := "T", node := none, versionInfo := "v1", responseNonce := "n1"
            resourceNames := ["b", "a"], errorDetail := none }).2
        { typeUrl := "T", node := none, versionInfo := "v1", responseNonce := "n1"
          resourceNames := ["b", "a"], errorDetail := none }
      = (false,
          (shouldRespondFn
            [("T", { emptyWR with typeUrl := "T", resourceNames := ["a", "b"]
                                  nonceSent := "n1" })]
            { typeUrl := "T", node := none, versionInfo := "v1", responseNonce := "n1"
              resourceNames := ["b", "a"], errorDetail := none }).2)) :=
  ⟨rfl, by decide,
    claim8_ack_idempotent _ _ _ rfl rfl (by decide) rfl (by decide) (by decide)⟩

/-- Whenever `shouldRespond` classifies a request as respond, the mutated
table holds a watch for the request's type-URL whose `TypeUrl` matches and
whose `NonceNacked` is empty (INIT and RECONNECT create it fresh; the
RESOURCE-CHANGE path clears it in its ACK writes). -/
theorem shouldRespondFn_true_lookup (m : WRMap) (req : DiscoveryRequest)
    (hkey : ∀ w, lookupWR m req.typeUrl = some w → w.typeUrl = req.typeUrl)
    (hresp : (shouldRespondFn m req).1 = true) :
    ∃ w, lookupWR (shouldRespondFn m req).2 req.typeUrl = some w ∧
      w.typeUrl = req.typeUrl ∧ w.nonceNacked = "" := by
  have he : req.errorDetail = none := by
    cases hcase : req.errorDetail with
    | none => rfl
    | some d =>
      unfold shouldRespondFn at hresp
      simp [hcase] at hresp
  rw [shouldRespond_fst_eq_spec m req he] at hresp
  unfold respondSpecListEqual at hresp
  by_cases hu : shouldUnsubscribe req
  · simp [hu] at hresp
  · by_cases hnn : req.responseNonce = ""
    · refine ⟨initialWR req, ?_, rfl, rfl⟩
      unfold shouldRespondFn
      simp [he, hu, hnn, lookupWR_setWR_self]
    · cases hl : lookupWR m req.typeUrl with
      | none =>
        refine ⟨initialWR req, ?_, rfl, rfl⟩
        unfold shouldRespondFn
        simp [he, hu, hnn, hl, lookupWR_setWR_self]
      | some prev =>
        rw [hl] at hresp
        by_cases hs : req.responseNonce = prev.nonceSent
        · have hps : ¬ (prev.nonceSent = "") := by
            rw [← hs]; exact hnn
          by_cases hle : listEqualUnordered prev.resourceNames req.resourceNames
          · simp [respondSpecPrev, hu, hnn, hs, hle, hps] at hresp
          · have hmain : lookupWR (shouldRespondFn m req).2 req.typeUrl = some
                { prev with
                    resourceNames := req.resourceNames
                    versionAcked := req.versionInfo
                    nonceAcked := req.responseNonce
                    nonceNacked := ""
                    lastRequest := some req } := by
              unfold shouldRespondFn
              simp [he, hu, hnn, hl, hs, hle, hps, lookupWR_setWR_self]
            exact ⟨_, hmain, hkey prev hl, rfl⟩
        · simp [respondSpecPrev, hu, hnn, hs] at hresp

/-- A successful send of generator output for a non-empty push version and a
non-debug type records `NonceSent = VersionSent = pushVersion` in the watch
for that type. -/
theorem pushXds_send_ok (m : WRMap) (pv : String) (w : WatchedResource)
    (res : List String) (now : Nat)
    (hw : lookupWR m w.typeUrl = some w)
    (hpv : ¬ (pv = ""))
    (hdbg : debugType.isPrefixOf w.typeUrl = false) :
    pushXdsFn m pv (some w) (some (GenResult.genSome res)) none now
      = (none, setWR m w.typeUrl
          { w with nonceSent := pv, versionSent := pv, lastSent := now
                   lastSize := ((res.map String.length).sum) }) := by
  unfold pushXdsFn sendFn
  simp [hw, hpv, hdbg]

/-- Claim C2 (amended form). When the state machine classifies a request as
respond and `pushXds` then sends successfully (generator produced
resources, no send error) for a non-debug type-URL, and the push version is
non-empty, the watch for the type afterwards has `NonceSent = VersionSent =`
that push version and `NonceNacked = ""`. -/
theorem claim2_response_updates_nonce_version (m : WRMap) (req : DiscoveryRequest)
    (pv : String) (res : List String) (now : Nat)
    (hkey : ∀ w, lookupWR m req.typeUrl = some w → w.typeUrl = req.typeUrl)
    (hresp : (shouldRespondFn m req).1 = true)
    (hpv : ¬ (pv = ""))
    (hdbg : debugType.isPrefixOf req.typeUrl = false) :
    ∃ w, lookupWR
        (processRequestFn m req pv (some (GenResult.genSome res)) none now).2.2
        req.typeUrl = some w ∧
      w.nonceSent = pv ∧ w.versionSent = pv ∧ w.nonceNacked = "" := by
  obtain ⟨w1, hw1, hty, hnacked⟩ := shouldRespondFn_true_lookup m req hkey hresp
  have hw1' : lookupWR (shouldRespondFn m req).2 w1.typeUrl = some w1 := by
    rw [hty]; exact hw1
  have hdbg' : debugType.isPrefixOf w1.typeUrl = false := by
    rw [hty]; exact hdbg
  have hpush := pushXds_send_ok (shouldRespondFn m req).2 pv w1 res now hw1' hpv hdbg'
  have hproc : (processRequestFn m req pv (some (GenResult.genSome res)) none now).2.2
      = setWR (shouldRespondFn m req).2 w1.typeUrl
          { w1 with nonceSent := pv, versionSent := pv, lastSent := now
                    lastSize := ((res.map String.length).sum) } := by
    unfold processRequestFn
    simp only [hresp, if_true, hw1, hpush]
  refine ⟨{ w1 with nonceSent := pv, versionSent := pv, lastSent := now
                    lastSize := ((res.map String.length).sum) }, ?_, rfl, rfl, hnacked⟩
  rw [hproc, ← hty]
  exact lookupWR_setWR_self _ _ _

/-- Witness for C2's theorem: an INIT request on an empty table followed by
a successful send with push version `"v1"`. -/
theorem claim2_witness :
    (∀ w, lookupWR ([] : WRMap) "T" = some w → w.typeUrl = "T") ∧
    (shouldRespondFn []
      { typeUrl := "T", node := none, versionInfo := "", responseNonce := ""
        resourceNames := ["a"], errorDetail := none }).1 = true ∧
    ¬ (("v1" : String) = "") ∧
    debugType.isPrefixOf "T" = false ∧
    (∃ w, lookupWR
        (processRequestFn []
          { typeUrl := "T", node := none, versionInfo := "", responseNonce := ""
            resourceNames := ["a"], errorDetail := none }
          "v1" (some (GenResult.genSome ["payload"])) none 9).2.2
        "T" = some w ∧
      w.nonceSent = "v1" ∧ w.versionSent = "v1" ∧ w.nonceNacked = "") :=
  ⟨fun w h => by simp [lookupWR] at h, by decide, by decide, by decide,
    claim2_response_updates_nonce_version []
      { typeUrl := "T", node := none, versionInfo := "", responseNonce := ""
        resourceNames := ["a"], errorDetail := none }
      "v1" ["payload"] 9
      (fun w h => by simp [lookupWR] at h) (by decide) (by decide) (by decide)⟩

/-- Counterexample to C2 as stated: a RESOURCE-CHANGE request processed
while the global push context carries an EMPTY `PushVersion`. The state
machine says respond, the send succeeds, the type is not debug — yet
`Connection.send` skips bookkeeping for an empty nonce, so the watch keeps
its old `NonceSent = "n1" ≠ PushVersion`. -/
theorem claim2_counterexample :
    (processRequestFn
        [("T", { emptyWR with typeUrl := "T", resourceNames := ["a"]
                              nonceSent := "n1" })]
        { typeUrl := "T", node := none, versionInfo := "v0", responseNonce := "n1"
          resourceNames := ["a", "b"], errorDetail := none }
        "" (some (GenResult.genSome ["r"])) none 7).1 = true ∧
    (processRequestFn
        [("T", { emptyWR with typeUrl := "T", resourceNames := ["a"]
                              nonceSent := "n1" })]
        { typeUrl := "T", node := none, versionInfo := "v0", responseNonce := "n1"
          resourceNames := ["a", "b"], errorDetail := none }
        "" (some (GenResult.genSome ["r"])) none 7).2.1 = none ∧
    (lookupWR
        (processRequestFn
          [("T", { emptyWR with typeUrl := "T", resourceNames := ["a"]
                                nonceSent := "n1" })]
          { typeUrl := "T", node := none, versionInfo := "v0", responseNonce := "n1"
            resourceNames := ["a", "b"], errorDetail := none }
          "" (some (GenResult.genSome ["r"])) none 7).2.2 "T").map
      WatchedResource.nonceSent = some "n1" ∧
    ¬ (("n1" : String) = "") := by
  decide

/-- Claim C9. `pushXds` surfaces exactly the generator's error: a nil
watched resource, a missing generator, or a nil resource slice all yield a
nil error and an untouched table, and a send failure (e.g. the
`DeadlineExceeded` timeout) is only logged — `pushXds` still returns nil, so
`processRequest` (hence the stream loop) does not terminate on it. -/
theorem claim9_pushxds_error_propagation :
    (∀ (m : WRMap) (pv : String) (w : Option WatchedResource)
        (gen : Option GenResult) (sendErr : Option String) (now : Nat),
      (pushXdsFn m pv w gen sendErr now).1 =
        (match w, gen with
          | some _, some (GenResult.genError e) => some e
          | _, _ => none)) ∧
    (∀ (m : WRMap) (pv : String) (w : Option WatchedResource)
        (res : List String) (e : String) (now : Nat),
      (pushXdsFn m pv w (some (GenResult.genSome res)) (some e) now) = (none, m)) ∧
    (∀ (m : WRMap) (req : DiscoveryRequest) (pv : String) (res : List String)
        (e : String) (now : Nat),
      (processRequestFn m req pv (some (GenResult.genSome res)) (some e) now).2.1
        = none) := by
  refine ⟨?_, ?_, ?_⟩
  · intro m pv w gen sendErr now
    cases w with
    | none => rfl
    | some w =>
      cases gen with
      | none => rfl
      | some g => cases g <;> cases sendErr <;> rfl
  · intro m pv w res e now
    cases w with
    | none => rfl
    | some w => rfl
  · intro m req pv res e now
    unfold processRequestFn
    by_cases hresp : (shouldRespondFn m req).1
    · simp only [hresp, if_true]
      cases hl : lookupWR (shouldRespondFn m req).2 req.typeUrl with
      | none => rfl
      | some w => rfl
    · simp [hresp]

theorem orderWatched_cons_sec (w : WatchedResource) (rest : WRMap) :
    orderWatchedResources ((secretType, w) :: rest) =
      w :: (rest.filter (fun p => !(decide (p.1 ∈ KnownOrderedTypeUrls)))).map
        (fun p => p.2) := by
  unfold orderWatchedResources
  simp [PushOrder, KnownOrderedTypeUrls, lookupWR, List.filter_cons]

theorem orderWatched_cons_ne (k : String) (w : WatchedResource) (rest : WRMap)
    (hk : ¬ (k = secretType)) :
    orderWatchedResources ((k, w) :: rest) =
      (PushOrder.filterMap (fun tp => lookupWR rest tp)) ++
        w :: (rest.filter (fun p => !(decide (p.1 ∈ KnownOrderedTypeUrls)))).map
          (fun p => p.2) := by
  unfold orderWatchedResources
  simp [PushOrder, KnownOrderedTypeUrls, lookupWR, List.filter_cons,
    List.filterMap_cons, hk]

theorem orderWatched_perm (m : WRMap) (hnd : keysNodup m) :
    (orderWatchedResources m).Perm (m.map Prod.snd) := by
  induction m with
  | nil => simp [orderWatchedResources, PushOrder, lookupWR]
  | cons p rest ih =>
    obtain ⟨k, w⟩ := p
    have hnd2 : (List.map Prod.fst ((k, w) :: rest)).Nodup := hnd
    rw [List.map_cons, List.nodup_cons] at hnd2
    have hk : k ∉ List.map Prod.fst rest := hnd2.1
    have hnd' : keysNodup rest := hnd2.2
    by_cases hsec : k = secretType
    · subst hsec
      have hfil : rest.filter (fun p => !(decide (p.1 ∈ KnownOrderedTypeUrls))) = rest := by
        rw [List.filter_eq_self]
        intro a ha
        have hne : ¬ (a.1 = secretType) := by
          intro hcon
          exact hk (hcon ▸ List.mem_map_of_mem Prod.fst ha)
        simp [KnownOrderedTypeUrls, hne]
      rw [orderWatched_cons_sec, hfil, List.map_cons]
    · rw [orderWatched_cons_ne k w rest hsec, List.map_cons]
      have hrest := ih hnd'
      unfold orderWatchedResources at hrest
      exact List.Perm.trans List.perm_middle (hrest.cons w)

/-- Claim C7. For a watched-resources map with distinct keys whose records
carry their own type-URL, `orderWatchedResources` lists each stored
`WatchedResource` exactly once (it is a permutation of the map's values),
with the `PushOrder` types present first, in `PushOrder`'s order, and every
remaining element of a type-URL outside `KnownOrderedTypeUrls`. -/
theorem claim7_order_watched_resources (m : WRMap)
    (hnd : keysNodup m) (hkm : keysMatch m) :
    (orderWatchedResources m).Perm (m.map Prod.snd) ∧
    ∃ tail, orderWatchedResources m =
        (PushOrder.filterMap (fun tp => lookupWR m tp)) ++ tail ∧
      ∀ w ∈ tail, ¬ (w.typeUrl ∈ KnownOrderedTypeUrls) := by
  refine ⟨orderWatched_perm m hnd, ?_⟩
  refine ⟨((m.filter (fun p => !(decide (p.1 ∈ KnownOrderedTypeUrls)))).map
    (fun p => p.2) : List WatchedResource), ?_, ?_⟩
  · rfl
  intro w hw
  rw [List.mem_map] at hw
  obtain ⟨p, hp, hpw⟩ := hw
  rw [List.mem_filter] at hp
  obtain ⟨hpm, hppred⟩ := hp
  have hty : p.2.typeUrl = p.1 := hkm p hpm
  intro hmem
  rw [← hpw, hty] at hmem
  simp [hmem] at hppred

/-- Witness for C7's theorem: a two-entry table (secret first in the result
even though it is listed second). -/
theorem claim7_witness :
    keysNodup [("T", { emptyWR with typeUrl := "T" }),
               (secretType, { emptyWR with typeUrl := secretType })] ∧
    keysMatch [("T", { emptyWR with typeUrl := "T" }),
               (secretType, { emptyWR with typeUrl := secretType })] ∧
    ((orderWatchedResources
        [("T", { emptyWR with typeUrl := "T" }),
         (secretType, { emptyWR with typeUrl := secretType })]).Perm
      (List.map Prod.snd
        [("T", { emptyWR with typeUrl := "T" }),
         (secretType, { emptyWR with typeUrl := secretType })]) ∧
      ∃ tail, orderWatchedResources
          [("T", { emptyWR with typeUrl := "T" }),
           (secretType, { emptyWR with typeUrl := secretType })] =
          (PushOrder.filterMap (fun tp => lookupWR
            [("T", { emptyWR with typeUrl := "T" }),
             (secretType, { emptyWR with typeUrl := secretType })] tp)) ++ tail ∧
        ∀ w ∈ tail, ¬ (w.typeUrl ∈ KnownOrderedTypeUrls)) :=
  ⟨by decide, by decide,
    claim7_order_watched_resources _ (by decide) (by decide)⟩

/-- Health probes arriving before the first counted request are skipped with
`firstRequest` still true. -/
theorem runReceive_cons_health (req : DiscoveryRequest)
    (rest : List DiscoveryRequest) (h : req.typeUrl = healthInfoType) :
    runReceive true (req :: rest) = runReceive true rest := by
  conv_lhs => unfold runReceive
  rw [if_pos (by simp [h])]

theorem runReceive_probes (probes rest' : List DiscoveryRequest)
    (hall : ∀ r ∈ probes, r.typeUrl = healthInfoType) :
    runReceive true (probes ++ rest') = runReceive true rest' := by
  induction probes with
  | nil => rfl
  | cons q qs ih =>
    have hq : q.typeUrl = healthInfoType := hall q (List.mem_cons_self q qs)
    rw [List.cons_append, runReceive_cons_health _ _ hq]
    exact ih (fun r hr => hall r (List.mem_cons_of_mem q hr))

/-- Claim C4. A first stream message of the health-probe type is ignored and
does not count as the first request, and a first counted request lacking a
node id makes the receive task emit the `INVALID_ARGUMENT` status error that
`Stream` then returns, with nothing forwarded for processing. -/
theorem claim4_first_message_contract
    (probes rest : List DiscoveryRequest) (hp bad : DiscoveryRequest)
    (pv : String) (gen : String → Option GenResult) (sendErr : Option String)
    (now : Nat) :
    (hp.typeUrl = healthInfoType →
      runReceive true (hp :: rest) = runReceive true rest) ∧
    ((∀ r ∈ probes, r.typeUrl = healthInfoType) →
      ¬ (bad.typeUrl = healthInfoType) →
      nodeIdMissing bad = true →
      (runReceive true (probes ++ bad :: rest)).1 = [] ∧
      (runStream (probes ++ bad :: rest) pv gen sendErr now).1 =
        some (GoError.grpcStatus codeInvalidArgument "missing node information")) := by
  constructor
  · intro h
    exact runReceive_cons_health hp rest h
  · intro hall hbad hmiss
    have hrec : runReceive true (probes ++ bad :: rest) =
        ([], some (GoError.grpcStatus codeInvalidArgument "missing node information")) := by
      rw [runReceive_probes probes (bad :: rest) hall]
      conv_lhs => unfold runReceive
      rw [if_neg (by simp [hbad]), if_pos (by simp [hmiss])]
    constructor
    · rw [hrec]
    · unfold runStream
      rw [hrec]
      rfl

/-- Witness for C4's theorem: one health probe followed by a node-less
request; the stream fails with the invalid-argument status. -/
theorem claim4_witness :
    (({ typeUrl := healthInfoType, node := none, versionInfo := ""
        responseNonce := "", resourceNames := [], errorDetail := none } :
        DiscoveryRequest).typeUrl = healthInfoType →
      runReceive true
          ({ typeUrl := healthInfoType, node := none, versionInfo := ""
             responseNonce := "", resourceNames := [], errorDetail := none } :: []) =
        runReceive true []) ∧
    ((∀ r ∈ [({ typeUrl := healthInfoType, node := none, versionInfo := ""
                responseNonce := "", resourceNames := [], errorDetail := none } :
                DiscoveryRequest)], r.typeUrl = healthInfoType) →
      ¬ (({ typeUrl := "T", node := none, versionInfo := "", responseNonce := ""
            resourceNames := [], errorDetail := none } :
            DiscoveryRequest).typeUrl = healthInfoType) →
      nodeIdMissing
          { typeUrl := "T", node := none, versionInfo := "", responseNonce := ""
            resourceNames := [], errorDetail := none } = true →
      (runReceive true
          ([{ typeUrl := healthInfoType, node := none, versionInfo := ""
              responseNonce := "", resourceNames := [], errorDetail := none }] ++
            { typeUrl := "T", node := none, versionInfo := "", responseNonce := ""
              resourceNames := [], errorDetail := none } :: [])).1 = [] ∧
      (runStream
          ([{ typeUrl := healthInfoType, node := none, versionInfo := ""
              responseNonce := "", resourceNames := [], errorDetail := none }] ++
            { typeUrl := "T", node := none, versionInfo := "", responseNonce := ""
              resourceNames := [], errorDetail := none } :: [])
          "v" (fun _ => none) none 0).1 =
        some (GoError.grpcStatus codeInvalidArgument "missing node information")) :=
  claim4_first_message_contract
    [{ typeUrl := healthInfoType, node := none, versionInfo := ""
       responseNonce := "", resourceNames := [], errorDetail := none }]
    []
    { typeUrl := healthInfoType, node := none, versionInfo := ""
      responseNonce := "", resourceNames := [], errorDetail := none }
    { typeUrl := "T", node := none, versionInfo := "", responseNonce := ""
      resourceNames := [], errorDetail := none }
    "v" (fun _ => none) none 0

/-- Claim C5 (amended form). `DeltaAggregatedResources` fails immediately,
leaving the stream unread, with the PLAIN error (`fmt.Errorf`) whose message
is "delta ads is not supported"; the error is not a gRPC status error (so
gRPC reports it as code `Unknown`, not `Unimplemented`). -/
theorem claim5_delta_unsupported (stream : List DiscoveryRequest) :
    (deltaAggregatedResources stream).1 = GoError.plain "delta ads is not supported" ∧
    (deltaAggregatedResources stream).2 = stream ∧
    GoError.isGrpcStatus (deltaAggregatedResources stream).1 = false :=
  ⟨rfl, rfl, rfl⟩

/-- Counterexample to C5 as stated: the error returned by the Delta-xDS
entrypoint is not the `Unimplemented` gRPC status error the claim names —
it is not a status error at all. -/
theorem claim5_counterexample :
    ¬ ((deltaAggregatedResources []).1 =
        GoError.grpcStatus codeUnimplemented "delta ads is not supported") ∧
    GoError.isGrpcStatus (deltaAggregatedResources []).1 = false := by
  constructor
  · intro h
    simp [deltaAggregatedResources] at h
  · rfl

theorem pickPush_assoc (a b c : Option PushContext) :
    pickPush (pickPush a b) c = pickPush a (pickPush b c) := by
  cases c with
  | some p => rfl
  | none => rfl

theorem mergeConfigs_assoc (x y z : Finset ConfigKey) :
    mergeConfigs (mergeConfigs x y) z = mergeConfigs x (mergeConfigs y z) := by
  unfold mergeConfigs
  by_cases hx : x.card = 0
  · simp [hx]
  · by_cases hy : y.card = 0
    · simp [hx, hy]
    · by_cases hz : z.card = 0
      · simp [hx, hy, hz]
      · have hx' : ¬ (x = ∅) := fun h => hx (by simp [h])
        have hy' : ¬ (y = ∅) := fun h => hy (by simp [h])
        have hxy : ¬ ((x ∪ y).card = 0) := by
          rw [Finset.card_eq_zero, Finset.union_eq_empty]
          intro hcon
          exact hx' hcon.1
        have hyz : ¬ ((y ∪ z).card = 0) := by
          rw [Finset.card_eq_zero, Finset.union_eq_empty]
          intro hcon
          exact hy' hcon.1
        simp [hx, hy, hz, hxy, hyz, Finset.union_assoc]

/-- Claim C3. `Merge` is associative, has nil as identity on both sides,
and on non-nil arguments satisfies the field laws: `Full` is OR, `Push` is
the other side's when non-nil (else the receiver's), `Start` is the
receiver's (older wins), `Reason` is the undeduplicated multiset union, and
`ConfigsUpdated` is empty when either side is empty and the union
otherwise. -/
theorem claim3_merge_algebra :
    (∀ a b c : Option PushRequest,
      mergePR (mergePR a b) c = mergePR a (mergePR b c)) ∧
    (∀ b : Option PushRequest, mergePR none b = b) ∧
    (∀ a : Option PushRequest, mergePR a none = a) ∧
    (∀ a b : PushRequest, mergePR (some a) (some b) = some (mergeSome a b)) ∧
    (∀ a b : PushRequest,
      (mergeSome a b).full = (a.full || b.full) ∧
      (mergeSome a b).push = (if b.push = none then a.push else b.push) ∧
      (mergeSome a b).start = a.start ∧
      (mergeSome a b).reason = a.reason + b.reason ∧
      (mergeSome a b).configsUpdated =
        (if a.configsUpdated = ∅ ∨ b.configsUpdated = ∅ then ∅
         else a.configsUpdated ∪ b.configsUpdated)) := by
  refine ⟨?_, ?_, ?_, ?_, ?_⟩
  · intro a b c
    cases a with
    | none => rfl
    | some a =>
      cases b with
      | none => rfl
      | some b =>
        cases c with
        | none => rfl
        | some c =>
          show some (mergeSome (mergeSome a b) c) = some (mergeSome a (mergeSome b c))
          have hfields : mergeSome (mergeSome a b) c = mergeSome a (mergeSome b c) := by
            simp [mergeSome, Bool.or_assoc, mergeConfigs_assoc, pickPush_assoc,
              add_assoc]
          rw [hfields]
  · intro b
    rfl
  · intro a
    cases a with
    | none => rfl
    | some a => rfl
  · intro a b
    rfl
  · intro a b
    refine ⟨rfl, ?_, rfl, rfl, ?_⟩
    · cases hb : b.push with
      | none => simp [mergeSome, pickPush, hb]
      | some p => simp [mergeSome, pickPush, hb]
    · simp [mergeSome, mergeConfigs, Finset.card_eq_zero]

/-- Claim C10 (amended form). `CopyMerge` and `Merge` agree on the `Full`,
`ConfigsUpdated`, `Start` and `Reason` fields and share the nil short
circuits, but NOT on `Push`: `CopyMerge` takes the other side's `Push`
unconditionally while `Merge` keeps the receiver's when the other's is nil,
so the results differ exactly when `other.Push` is nil and the receiver's
is not. -/
theorem claim10_copymerge_agreement :
    (∀ a b : PushRequest,
      (copyMergeSome a b).full = (mergeSome a b).full ∧
      (copyMergeSome a b).configsUpdated = (mergeSome a b).configsUpdated ∧
      (copyMergeSome a b).start = (mergeSome a b).start ∧
      (copyMergeSome a b).reason = (mergeSome a b).reason ∧
      (copyMergeSome a b).push = b.push ∧
      (mergeSome a b).push = (if b.push = none then a.push else b.push)) ∧
    (∀ b : Option PushRequest, copyMergePR none b = b) ∧
    (∀ a : Option PushRequest, copyMergePR a none = a) ∧
    (∀ a b : PushRequest, copyMergePR (some a) (some b) = some (copyMergeSome a b)) := by
  refine ⟨?_, ?_, ?_, ?_⟩
  · intro a b
    refine ⟨rfl, ?_, rfl, ?_, rfl, ?_⟩
    · by_cases ha : a.configsUpdated.card = 0 <;>
        by_cases hb : b.configsUpdated.card = 0 <;>
        simp [copyMergeSome, mergeSome, mergeConfigs, ha, hb, Nat.pos_iff_ne_zero]
    · by_cases h : 0 < Multiset.card a.reason + Multiset.card b.reason
      · simp [copyMergeSome, mergeSome, h]
      · have hz : Multiset.card a.reason + Multiset.card b.reason = 0 :=
          Nat.eq_zero_of_not_pos h
        have ha : a.reason = 0 := by
          rw [← Multiset.card_eq_zero]
          omega
        have hb : b.reason = 0 := by
          rw [← Multiset.card_eq_zero]
          omega
        simp [copyMergeSome, mergeSome, h, ha, hb]
    · cases hb : b.push with
      | none => simp [mergeSome, pickPush, hb]
      | some p => simp [mergeSome, pickPush, hb]
  · intro b
    rfl
  · intro a
    cases a with
    | none => rfl
    | some a => rfl
  · intro a b
    rfl

/-- Counterexample to C10 as stated: with `a.Push` non-nil and `b.Push`
nil, `Merge` keeps `a.Push` but `CopyMerge` returns a nil `Push` — the two
implementations do not agree on the resulting `Push` pointer. -/
theorem claim10_counterexample :
    ¬ ((copyMergeSome
        { full := false, configsUpdated := ∅, push := some { pushVersion := "v1" }
          start := 0, reason := 0, delta := { subscribed := [], unsubscribed := [] } }
        { full := false, configsUpdated := ∅, push := none
          start := 0, reason := 0, delta := { subscribed := [], unsubscribed := [] } }).push
      =
      (mergeSome
        { full := false, configsUpdated := ∅, push := some { pushVersion := "v1" }
          start := 0, reason := 0, delta := { subscribed := [], unsubscribed := [] } }
        { full := false, configsUpdated := ∅, push := none
          start := 0, reason := 0, delta := { subscribed := [], unsubscribed := [] } }).push) := by
  intro h
  simp [copyMergeSome, mergeSome, pickPush] at h

end XdsServer
